import Mathlib

/-!
Verification of the matcha-menu crawler and evidence aggregator of
`scrape_google_matcha.py` (MatchaFind).

The crawler `check_menu_for_matcha` is embedded as a pure state machine over an
explicit "web" environment (a fetch function together with URL parsing and
relative-link resolution), and the frontier's unordered `set.pop` is made
explicit as a removal-strategy parameter `choose`.  The loop is written by
structural recursion on a fuel argument equal to the page budget; the body also
carries the source's own `pages_crawled_count < MAX_PAGES_TO_CRAWL` guard, and
fuel beyond the budget is proved irrelevant, so the fuel is not an abstraction
leak.  The evidence aggregator `check_for_matcha` is embedded directly.
-/

/-! ### String helpers (Python `in`, `.lower()`, `\s*`) -/

/-- Does `p` occur as a leading segment of `s`? -/
def startsList : List Char → List Char → Bool
  | [], _ => true
  | _ :: _, [] => false
  | a :: as, b :: bs => a == b && startsList as bs

/-- Does `n` occur contiguously anywhere in the second list?  Models Python
`n in hay` for strings. -/
def subList (n : List Char) : List Char → Bool
  | [] => startsList n []
  | c :: cs => startsList n (c :: cs) || subList n cs

/-- Python substring test `needle in hay`. -/
def containsStr (needle hay : String) : Bool := subList needle.data hay.data

/-- Python `str.lower()` (ASCII range, as exercised by the script). -/
def lowerStr (s : String) : String := String.mk (s.data.map Char.toLower)

/-- The characters matched by the regex class `\s` (ASCII). -/
def isPySpace (c : Char) : Bool :=
  c == ' ' || c == '\t' || c == '\n' || c == '\r' || c == '\x0b' || c == '\x0c'

/-- Greedily consume `\s*`. -/
def dropSpaces : List Char → List Char
  | [] => []
  | c :: cs => if isPySpace c then dropSpaces cs else c :: cs

/-- Consume the literal token `t` at the front of `s`, returning the rest. -/
def afterToken : List Char → List Char → Option (List Char)
  | [], s => some s
  | _ :: _, [] => none
  | a :: as, b :: bs => if a == b then afterToken as bs else none

/-! ### The fixed matcha pattern set

The four regexes of `matcha_patterns` (source lines 105-110), each compiled to
a match-at-position predicate.  None of the alternatives begins with a
whitespace character, so the greedy `dropSpaces` is an exact rendering of
`\s*`. -/

/-- `matcha\s*(?:latte|tea|drink|coffee|frappuccino|smoothie|shake)` at a position. -/
def pat1At (s : List Char) : Bool :=
  match afterToken ("matcha".data) s with
  | some r =>
    (["latte", "tea", "drink", "coffee", "frappuccino", "smoothie", "shake"]).any
      (fun w => startsList w.data (dropSpaces r))
  | none => false

/-- `matcha\s*(?:green\s*tea|powder)` at a position. -/
def pat2At (s : List Char) : Bool :=
  match afterToken ("matcha".data) s with
  | some r =>
    (match afterToken ("green".data) (dropSpaces r) with
     | some r2 => startsList ("tea".data) (dropSpaces r2)
     | none => false) || startsList ("powder".data) (dropSpaces r)
  | none => false

/-- `(?:iced|hot)\s*matcha` at a position. -/
def pat3At (s : List Char) : Bool :=
  (match afterToken ("iced".data) s with
   | some r => startsList ("matcha".data) (dropSpaces r)
   | none => false) ||
  (match afterToken ("hot".data) s with
   | some r => startsList ("matcha".data) (dropSpaces r)
   | none => false)

/-- `ceremonial\s*matcha` at a position. -/
def pat4At (s : List Char) : Bool :=
  match afterToken ("ceremonial".data) s with
  | some r => startsList ("matcha".data) (dropSpaces r)
  | none => false

/-- The fixed matcha-pattern set of the source (lines 105-110). -/
def matcha_patterns : List (List Char → Bool) := [pat1At, pat2At, pat3At, pat4At]

/-- `re.search`: does the pattern match at some position of the text? -/
def searchSuffixes (patAt : List Char → Bool) : List Char → Bool
  | [] => patAt []
  | c :: cs => patAt (c :: cs) || searchSuffixes patAt cs

/-- `any(re.search(p, page_text) for p in matcha_patterns)` — the loop of
source lines 138-141. -/
def matchaPatternSearch (text : String) : Bool :=
  matcha_patterns.any (fun p => searchSuffixes p text.data)

/-! ### URLs, pages, the web environment -/

/-- The fields of a `urlparse` result used by the script. -/
structure Url where
  scheme : String
  netloc : String
  path : String
deriving DecidableEq, Repr

/-- `geturl()` on a parsed absolute URL. -/
def Url.geturl (u : Url) : String := u.scheme ++ "://" ++ u.netloc ++ u.path

/-- An `<a href=...>` tag: the parse of its raw `href` and its visible text. -/
structure Anchor where
  href : Url
  text : String
deriving DecidableEq, Repr

/-- The observable outcome of a successful `requests.get`: status code, the
page's visible text (`soup.get_text()`), and its anchor tags. -/
structure Fetched where
  status : Nat
  text : String
  links : List Anchor
deriving DecidableEq, Repr

/-- The fixed page/link dataset a crawl runs against.  `fetch` returns `none`
for a transport failure (`requests.exceptions.RequestException`); `parse`
models `urlparse` on a raw URL string, `resolve` models
`urlparse(requests.compat.urljoin(current, href))` for a relative `href`. -/
structure Web where
  fetch : String → Option Fetched
  parse : String → Url
  resolve : String → Url → Url

/-- `MAX_PAGES_TO_CRAWL = 7` (source line 117). -/
def MAX_PAGES_TO_CRAWL : Nat := 7

/-- The priority keyword list of source line 161. -/
def linkKeywords : List String := ["menu", "drink", "product", "item", "cafe", "beverage"]

/-- Source line 161: is some keyword a substring of the resolved URL's
lowercased path or of the anchor's lowercased text? -/
def isPriorityLink (u : Url) (linkTextLower : String) : Bool :=
  linkKeywords.any (fun kw => containsStr kw (lowerStr u.path) || containsStr kw linkTextLower)

/-- Source lines 147-155: resolve a raw href.  A relative link (no scheme, no
netloc) is resolved against the current page; an absolute `http`/`https` link
is kept; anything else (`mailto:`, `tel:`, `javascript:`) is skipped. -/
def hrefJoin (resolve : String → Url → Url) (current : String) (u : Url) : Option Url :=
  if u.scheme = "" ∧ u.netloc = "" then some (resolve current u)
  else if u.scheme = "http" ∨ u.scheme = "https" then some u
  else none

/-- Source lines 145-166, one anchor: enqueue the resolved link if it is on the
seed domain and not yet visited or queued — always when priority-classified,
otherwise only while the frontier holds fewer than `MAX_PAGES_TO_CRAWL * 2`
entries. -/
def enqueueOne (resolve : String → Url → Url) (dom current : String)
    (visited : List String) (front : List String) (a : Anchor) : List String :=
  match hrefJoin resolve current a.href with
  | none => front
  | some j =>
    if j.netloc = dom ∧ j.geturl ∉ visited ∧ j.geturl ∉ front then
      if isPriorityLink j (lowerStr a.text) then front ++ [j.geturl]
      else if front.length < MAX_PAGES_TO_CRAWL * 2 then front ++ [j.geturl]
      else front
    else front

/-- The `for link_tag in soup.find_all('a', href=True)` loop. -/
def enqueueLinks (resolve : String → Url → Url) (dom current : String)
    (visited : List String) (front : List String) (links : List Anchor) : List String :=
  links.foldl (enqueueOne resolve dom current visited) front

/-- `pages_to_visit.pop()` together with the `if current_url in visited_pages:
continue` re-pops (source lines 120-122): remove elements, at the index chosen
by the removal strategy, until one not yet visited appears.  The fuel is the
frontier length, which bounds the number of pops. -/
def popUnvisited (choose : List String → Nat) :
    Nat → List String → List String → Option (String × List String)
  | 0, _, _ => none
  | n + 1, frontier, visited =>
    if h : frontier = [] then none
    else
      let i := choose frontier % frontier.length
      let current := frontier.get ⟨i, Nat.mod_lt _ (List.length_pos.mpr h)⟩
      let rest := frontier.eraseIdx i
      if current ∈ visited then popUnvisited choose n rest visited
      else some (current, rest)

/-- Final crawl state: the returned verdict, the visited set, the fetch
counter, and whatever is left of the frontier. -/
structure CrawlResult where
  found : Bool
  visited : List String
  count : Nat
  frontier : List String
deriving DecidableEq, Repr

/-- The `while pages_to_visit and pages_crawled_count < MAX_PAGES_TO_CRAWL`
loop of source lines 119-176.  Each iteration pops an unvisited URL, marks it
visited, increments the counter and issues the GET; a transport failure or a
non-200 status skips the page; a pattern match returns `true` immediately;
otherwise links are extracted only while the incremented counter is still
below the budget.  The fuel decreases exactly once per fetch. -/
def crawlLoop (web : Web) (choose : List String → Nat) (dom : String) :
    Nat → List String → List String → Nat → CrawlResult
  | 0, frontier, visited, count => ⟨false, visited, count, frontier⟩
  | b + 1, frontier, visited, count =>
    if count < MAX_PAGES_TO_CRAWL then
      match popUnvisited choose frontier.length frontier visited with
      | none => ⟨false, visited, count, []⟩
      | some (current, rest) =>
        match web.fetch current with
        | none => crawlLoop web choose dom b rest (current :: visited) (count + 1)
        | some pg =>
          if pg.status ≠ 200 then
            crawlLoop web choose dom b rest (current :: visited) (count + 1)
          else if matchaPatternSearch (lowerStr pg.text) then
            ⟨true, current :: visited, count + 1, rest⟩
          else if count + 1 < MAX_PAGES_TO_CRAWL then
            crawlLoop web choose dom b
              (enqueueLinks web.resolve dom current (current :: visited) rest pg.links)
              (current :: visited) (count + 1)
          else
            crawlLoop web choose dom b rest (current :: visited) (count + 1)
    else ⟨false, visited, count, frontier⟩

/-- `check_menu_for_matcha` (source lines 92-181), instrumented to return the
full final crawl state. -/
def check_menu_full (web : Web) (choose : List String → Nat) (website_url : String) :
    CrawlResult :=
  if website_url = "" then ⟨false, [], 0, []⟩
  else
    crawlLoop web choose (web.parse website_url).netloc
      MAX_PAGES_TO_CRAWL [website_url] [] 0

/-- `check_menu_for_matcha`: the boolean verdict of the crawl. -/
def check_menu_for_matcha (web : Web) (choose : List String → Nat)
    (website_url : String) : Bool :=
  (check_menu_full web choose website_url).found

/-! ### The evidence aggregator `check_for_matcha` (source lines 183-245) -/

/-- One entry of the `reviews` field. -/
structure Review where
  text : String
deriving DecidableEq, Repr

/-- The `editorial_summary` field; `overview` is absent or a string. -/
structure EditorialSummary where
  overview : Option String
deriving DecidableEq, Repr

/-- The place-details fields read by `check_for_matcha`.  `none` models an
absent key (`dict.get` returning `None`). -/
structure PlaceDetails where
  name : Option String
  website : Option String
  reviews : Option (List Review)
  editorial_summary : Option EditorialSummary
  type : List String
deriving DecidableEq, Repr

/-- The supplementary evidence entries (source lines 211-239), in the order
the source appends them: review mention, name mention, editorial-summary
mention, business type.  None of these depends on the network. -/
def suppEvidence (pd : PlaceDetails) : List String :=
  (match pd.reviews with
   | some rs =>
     if rs.any (fun r => containsStr "matcha" (lowerStr r.text)) then
       ["Mentioned in reviews"]
     else []
   | none => []) ++
  (if containsStr "matcha" (lowerStr (pd.name.getD "")) then
     ["Mentioned in name"]
   else []) ++
  (match pd.editorial_summary with
   | some es =>
     match es.overview with
     | some ov =>
       if ov ≠ "" ∧ containsStr "matcha" (lowerStr ov) then
         ["Mentioned in editorial summary"]
       else []
     | none => []
   | none => []) ++
  (if "cafe" ∈ pd.type ∨ "coffee_shop" ∈ pd.type ∨ "tea_room" ∈ pd.type then
     ["Relevant business type (e.g., cafe, tea room)"]
   else [])

/-- `check_for_matcha` (source lines 183-245): the crawl verdict alone decides
`has_matcha`; the evidence list opens with the menu-scan entry when the crawl
succeeded, continues with the supplementary entries, and receives the
placeholder entry when it would otherwise be empty and `has_matcha` is false. -/
def check_for_matcha (web : Web) (choose : List String → Nat)
    (pd : PlaceDetails) : Bool × List String :=
  let matcha_found_on_menu :=
    match pd.website with
    | some w => if w = "" then false else check_menu_for_matcha web choose w
    | none => false
  let has_matcha := matcha_found_on_menu
  let matcha_evidence :=
    (if matcha_found_on_menu then ["Found on menu (website scan)"] else []) ++
      suppEvidence pd
  let matcha_evidence :=
    if matcha_evidence = [] ∧ has_matcha = false then
      matcha_evidence ++ ["No specific matcha indicators found."]
    else matcha_evidence
  (has_matcha, matcha_evidence)

/-! ### Concrete page/link datasets used as witnesses -/

/-- Removal strategy: always pop the head of the frontier. -/
def chooseFirst : List String → Nat := fun _ => 0

/-- Removal strategy: always pop the last element of the frontier. -/
def chooseLast : List String → Nat := fun l => l.length - 1

/-- Seven same-domain anchors, none priority-classified. -/
def webCAnchors : List Anchor :=
  [⟨⟨"http", "s.test", "/a1"⟩, "one"⟩,
   ⟨⟨"http", "s.test", "/a2"⟩, "two"⟩,
   ⟨⟨"http", "s.test", "/a3"⟩, "three"⟩,
   ⟨⟨"http", "s.test", "/a4"⟩, "four"⟩,
   ⟨⟨"http", "s.test", "/a5"⟩, "five"⟩,
   ⟨⟨"http", "s.test", "/a6"⟩, "six"⟩,
   ⟨⟨"http", "s.test", "/a7"⟩, "seven"⟩]

/-- The seed page of `webC`: no matcha text, seven general links. -/
def webCSeedPage : Fetched := ⟨200, "welcome to our shop", webCAnchors⟩

/-- A dataset where only the page behind the seventh link mentions matcha:
which pages fit into the budget of 7 depends on the removal order. -/
def webC : Web where
  fetch u :=
    if u = "http://s.test/" then some webCSeedPage
    else if u = "http://s.test/a7" then some ⟨200, "try our matcha latte", []⟩
    else some ⟨200, "nothing to see", []⟩
  parse _ := ⟨"http", "s.test", "/"⟩
  resolve _ u := ⟨"http", "s.test", u.path⟩

/-- The two-page menu scenario: the seed links to `/menu` via a relative href,
and the menu page advertises an iced matcha latte. -/
def webW : Web where
  fetch u :=
    if u = "http://ex.test/" then
      some ⟨200, "Welcome to our place", [⟨⟨"", "", "/menu"⟩, "Menu"⟩]⟩
    else if u = "http://ex.test/menu" then
      some ⟨200, "Iced Matcha Latte - 5.00", []⟩
    else none
  parse _ := ⟨"http", "ex.test", "/"⟩
  resolve _ u := ⟨"http", "ex.test", u.path⟩

/-- A dataset where every fetch fails. -/
def webN : Web where
  fetch _ := none
  parse _ := ⟨"http", "none.test", "/"⟩
  resolve _ u := u

/-! ### Helper lemmas about the frontier pop -/

/-- In a duplicate-free list, the element at an index does not survive the
removal of that index. -/
theorem get_notMem_eraseIdx {α : Type} :
    ∀ (l : List α) (i : Nat) (h : i < l.length), l.Nodup → l.get ⟨i, h⟩ ∉ l.eraseIdx i := by
  intro l
  induction l with
  | nil => intro i h; simp at h
  | cons a t ih =>
    intro i h hnd
    cases i with
    | zero =>
      simpa using (List.nodup_cons.mp hnd).1
    | succ j =>
      have hj : j < t.length := by simpa using h
      simp only [List.get, List.eraseIdx, List.mem_cons, not_or]
      constructor
      · intro heq
        exact (List.nodup_cons.mp hnd).1 (heq ▸ List.get_mem t j hj)
      · exact ih j hj (List.nodup_cons.mp hnd).2

/-- What `popUnvisited` returns: an unvisited member of the frontier, together
with a sub-frontier; on a duplicate-free frontier the popped URL is gone from
the rest and the rest stays duplicate-free. -/
theorem popUnvisited_sound (choose : List String → Nat) :
    ∀ (n : Nat) (f v : List String) (c : String) (r : List String),
      popUnvisited choose n f v = some (c, r) →
      c ∈ f ∧ c ∉ v ∧ (∀ u ∈ r, u ∈ f) ∧ (f.Nodup → r.Nodup ∧ c ∉ r) := by
  intro n
  induction n with
  | zero => intro f v c r h; simp [popUnvisited] at h
  | succ n ih =>
    intro f v c r h
    by_cases hf : f = []
    · rw [popUnvisited, dif_pos hf] at h
      exact absurd h (by simp)
    · rw [popUnvisited, dif_neg hf] at h
      by_cases hv : f.get ⟨choose f % f.length, Nat.mod_lt _ (List.length_pos.mpr hf)⟩ ∈ v
      · rw [if_pos hv] at h
        obtain ⟨h1, h2, h3, h4⟩ := ih _ v c r h
        refine ⟨List.eraseIdx_subset _ _ h1, h2,
          fun u hu => List.eraseIdx_subset _ _ (h3 u hu), fun hnd => ?_⟩
        exact h4 ((List.eraseIdx_sublist f _).nodup hnd)
      · rw [if_neg hv] at h
        obtain ⟨hc, hr⟩ : f.get ⟨choose f % f.length, Nat.mod_lt _ (List.length_pos.mpr hf)⟩ = c ∧
            f.eraseIdx (choose f % f.length) = r := by
          constructor <;> · injection h with h'; cases h'; rfl
        subst hc; subst hr
        refine ⟨List.get_mem _ _ _, hv, fun u hu => List.eraseIdx_subset _ _ hu, fun hnd => ?_⟩
        exact ⟨(List.eraseIdx_sublist f _).nodup hnd, get_notMem_eraseIdx _ _ _ hnd⟩

/-! ### Helper lemmas about link enqueueing -/

/-- Every `enqueueOne` call either leaves the frontier unchanged or appends a
single resolved URL that lies on the seed domain and was in neither the
visited set nor the frontier. -/
theorem enqueueOne_cases (resolve : String → Url → Url) (dom current : String)
    (visited front : List String) (a : Anchor) :
    enqueueOne resolve dom current visited front a = front ∨
    ∃ j : Url, enqueueOne resolve dom current visited front a = front ++ [j.geturl] ∧
      j.netloc = dom ∧ j.geturl ∉ visited ∧ j.geturl ∉ front := by
  unfold enqueueOne
  cases hrefJoin resolve current a.href with
  | none => exact Or.inl rfl
  | some j =>
    dsimp only
    by_cases hcond : j.netloc = dom ∧ j.geturl ∉ visited ∧ j.geturl ∉ front
    · rw [if_pos hcond]
      by_cases hp : isPriorityLink j (lowerStr a.text)
      · exact Or.inr ⟨j, by rw [if_pos hp], hcond.1, hcond.2.1, hcond.2.2⟩
      · by_cases hl : front.length < MAX_PAGES_TO_CRAWL * 2
        · exact Or.inr ⟨j, by rw [if_neg hp, if_pos hl], hcond.1, hcond.2.1, hcond.2.2⟩
        · exact Or.inl (by rw [if_neg hp, if_neg hl])
    · exact Or.inl (by rw [if_neg hcond])

/-- The link-extraction fold keeps the frontier duplicate-free and disjoint
from the visited set, and every URL it adds carries the seed domain. -/
theorem enqueueLinks_inv (resolve : String → Url → Url) (dom current : String)
    (visited : List String) :
    ∀ (links : List Anchor) (front : List String),
      front.Nodup → (∀ u ∈ front, u ∉ visited) →
      (enqueueLinks resolve dom current visited front links).Nodup ∧
      (∀ u ∈ enqueueLinks resolve dom current visited front links, u ∉ visited) ∧
      (∀ u ∈ enqueueLinks resolve dom current visited front links,
        u ∈ front ∨ ∃ j : Url, j.geturl = u ∧ j.netloc = dom) := by
  intro links
  induction links with
  | nil => intro front h1 h2; exact ⟨h1, h2, fun u hu => Or.inl hu⟩
  | cons a links ih =>
    intro front h1 h2
    have hstep : enqueueLinks resolve dom current visited front (a :: links) =
        enqueueLinks resolve dom current visited
          (enqueueOne resolve dom current visited front a) links := rfl
    rw [hstep]
    rcases enqueueOne_cases resolve dom current visited front a with heq | ⟨j, heq, hdom, hnv, hnf⟩
    · rw [heq]; exact ih front h1 h2
    · rw [heq]
      have h1' : (front ++ [j.geturl]).Nodup := by
        rw [List.nodup_append]
        refine ⟨h1, List.nodup_singleton _, ?_⟩
        intro x hx hx2
        rw [List.mem_singleton] at hx2
        exact hnf (hx2 ▸ hx)
      have h2' : ∀ u ∈ front ++ [j.geturl], u ∉ visited := by
        intro u hu
        rcases List.mem_append.mp hu with hu | hu
        · exact h2 u hu
        · simpa using (List.mem_singleton.mp hu) ▸ hnv
      obtain ⟨g1, g2, g3⟩ := ih (front ++ [j.geturl]) h1' h2'
      refine ⟨g1, g2, fun u hu => ?_⟩
      rcases g3 u hu with hu2 | hu2
      · rcases List.mem_append.mp hu2 with hu3 | hu3
        · exact Or.inl hu3
        · exact Or.inr ⟨j, (List.mem_singleton.mp hu3).symm, hdom⟩
      · exact Or.inr hu2

/-! ### The crawl-loop invariants -/

/-- The fetch counter never leaves the page budget behind. -/
theorem crawlLoop_count_le (web : Web) (choose : List String → Nat) (dom : String) :
    ∀ (b : Nat) (f v : List String) (c : Nat), c ≤ MAX_PAGES_TO_CRAWL →
      (crawlLoop web choose dom b f v c).count ≤ MAX_PAGES_TO_CRAWL := by
  intro b
  induction b with
  | zero => intro f v c hc; simpa [crawlLoop] using hc
  | succ b ih =>
    intro f v c hc
    rw [crawlLoop]
    by_cases hlt : c < MAX_PAGES_TO_CRAWL
    · rw [if_pos hlt]
      cases hpop : popUnvisited choose f.length f v with
      | none => simpa using hc
      | some pr =>
        obtain ⟨current, rest⟩ := pr
        dsimp only
        cases hf : web.fetch current with
        | none => exact ih _ _ _ hlt
        | some pg =>
          dsimp only
          by_cases hs : pg.status ≠ 200
          · rw [if_pos hs]; exact ih _ _ _ hlt
          · rw [if_neg hs]
            by_cases hm : matchaPatternSearch (lowerStr pg.text) = true
            · rw [if_pos hm]; simpa using hlt
            · rw [if_neg hm]
              by_cases hc2 : c + 1 < MAX_PAGES_TO_CRAWL
              · rw [if_pos hc2]; exact ih _ _ _ hlt
              · rw [if_neg hc2]; exact ih _ _ _ hlt
    · rw [if_neg hlt]; simpa using hc

/-- Once enough fuel for the page budget is supplied, the fuel amount is
invisible: the loop's own `pages_crawled_count < MAX_PAGES_TO_CRAWL` guard is
what stops the crawl.  This is the termination bound of the source loop. -/
theorem crawlLoop_fuel_irrel (web : Web) (choose : List String → Nat) (dom : String) :
    ∀ (b b' : Nat) (f v : List String) (c : Nat),
      MAX_PAGES_TO_CRAWL ≤ c + b → MAX_PAGES_TO_CRAWL ≤ c + b' →
      crawlLoop web choose dom b f v c = crawlLoop web choose dom b' f v c := by
  intro b
  induction b with
  | zero =>
    intro b' f v c hb hb'
    have hc : ¬ c < MAX_PAGES_TO_CRAWL := by omega
    cases b' with
    | zero => rfl
    | succ k =>
      show (⟨false, v, c, f⟩ : CrawlResult) = crawlLoop web choose dom (k + 1) f v c
      rw [crawlLoop, if_neg hc]
  | succ b ih =>
    intro b' f v c hb hb'
    cases b' with
    | zero =>
      have hc : ¬ c < MAX_PAGES_TO_CRAWL := by omega
      conv_lhs => rw [crawlLoop]
      rw [if_neg hc]
      rfl
    | succ k =>
      by_cases hc : c < MAX_PAGES_TO_CRAWL
      · conv_lhs => rw [crawlLoop]
        conv_rhs => rw [crawlLoop]
        simp only [if_pos hc]
        cases hpop : popUnvisited choose f.length f v with
        | none => rfl
        | some pr =>
          obtain ⟨current, rest⟩ := pr
          dsimp only
          cases hf : web.fetch current with
          | none => exact ih k rest (current :: v) (c + 1) (by omega) (by omega)
          | some pg =>
            dsimp only
            by_cases hs : pg.status ≠ 200
            · simp only [if_pos hs]
              exact ih k rest (current :: v) (c + 1) (by omega) (by omega)
            · simp only [if_neg hs]
              by_cases hm : matchaPatternSearch (lowerStr pg.text) = true
              · simp only [if_pos hm]
              · simp only [if_neg hm]
                by_cases hc2 : c + 1 < MAX_PAGES_TO_CRAWL
                · simp only [if_pos hc2]
                  exact ih k
                    (enqueueLinks web.resolve dom current (current :: v) rest pg.links)
                    (current :: v) (c + 1) (by omega) (by omega)
                · simp only [if_neg hc2]
                  exact ih k rest (current :: v) (c + 1) (by omega) (by omega)
      · conv_lhs => rw [crawlLoop]
        conv_rhs => rw [crawlLoop]
        simp only [if_neg hc]

/-- A URL string that passed the same-domain check: it is the `geturl` of some
parsed URL whose network location is the crawl's seed domain. -/
def urlFromDomain (dom u : String) : Prop :=
  ∃ j : Url, j.geturl = u ∧ j.netloc = dom

/-- The core loop invariant: starting from a duplicate-free frontier disjoint
from a duplicate-free visited set, all of whose members are the seed or carry
the seed domain, the final visited set is duplicate-free, stays disjoint from
the leftover frontier, and contains only the seed or same-domain URLs. -/
theorem crawlLoop_inv (web : Web) (choose : List String → Nat) (dom seed : String) :
    ∀ (b : Nat) (f v : List String) (c : Nat),
      f.Nodup → v.Nodup → (∀ u ∈ f, u ∉ v) →
      (∀ u ∈ f, u = seed ∨ urlFromDomain dom u) →
      (∀ u ∈ v, u = seed ∨ urlFromDomain dom u) →
      (crawlLoop web choose dom b f v c).visited.Nodup ∧
      (∀ u ∈ (crawlLoop web choose dom b f v c).frontier,
        u ∉ (crawlLoop web choose dom b f v c).visited) ∧
      (∀ u ∈ (crawlLoop web choose dom b f v c).visited, u = seed ∨ urlFromDomain dom u) := by
  intro b
  induction b with
  | zero => intro f v c h1 h2 h3 h4 h5; exact ⟨h2, h3, h5⟩
  | succ b ih =>
    intro f v c h1 h2 h3 h4 h5
    rw [crawlLoop]
    by_cases hc : c < MAX_PAGES_TO_CRAWL
    · rw [if_pos hc]
      cases hpop : popUnvisited choose f.length f v with
      | none => exact ⟨h2, by simp, h5⟩
      | some pr =>
        obtain ⟨current, rest⟩ := pr
        dsimp only
        obtain ⟨hcf, hcv, hrf, hnd⟩ := popUnvisited_sound choose f.length f v current rest hpop
        obtain ⟨hrnd, hcr⟩ := hnd h1
        have hv' : (current :: v).Nodup := List.nodup_cons.mpr ⟨hcv, h2⟩
        have h3' : ∀ u ∈ rest, u ∉ current :: v := by
          intro u hu
          rw [List.mem_cons, not_or]
          exact ⟨fun heq => hcr (heq ▸ hu), h3 u (hrf u hu)⟩
        have h4' : ∀ u ∈ rest, u = seed ∨ urlFromDomain dom u :=
          fun u hu => h4 u (hrf u hu)
        have h5' : ∀ u ∈ current :: v, u = seed ∨ urlFromDomain dom u := by
          intro u hu
          rcases List.mem_cons.mp hu with heq | hu2
          · exact heq ▸ h4 current hcf
          · exact h5 u hu2
        cases hf : web.fetch current with
        | none => exact ih rest (current :: v) (c + 1) hrnd hv' h3' h4' h5'
        | some pg =>
          dsimp only
          by_cases hs : pg.status ≠ 200
          · simp only [if_pos hs]
            exact ih rest (current :: v) (c + 1) hrnd hv' h3' h4' h5'
          · simp only [if_neg hs]
            by_cases hm : matchaPatternSearch (lowerStr pg.text) = true
            · simp only [if_pos hm]
              exact ⟨hv', h3', h5'⟩
            · simp only [if_neg hm]
              by_cases hc2 : c + 1 < MAX_PAGES_TO_CRAWL
              · simp only [if_pos hc2]
                obtain ⟨g1, g2, g3⟩ :=
                  enqueueLinks_inv web.resolve dom current (current :: v) pg.links rest hrnd h3'
                have g4 : ∀ u ∈ enqueueLinks web.resolve dom current (current :: v) rest pg.links,
                    u = seed ∨ urlFromDomain dom u := by
                  intro u hu
                  rcases g3 u hu with hu2 | hu2
                  · exact h4' u hu2
                  · exact Or.inr hu2
                exact ih _ (current :: v) (c + 1) g1 hv' g2 g4 h5'
              · simp only [if_neg hc2]
                exact ih rest (current :: v) (c + 1) hrnd hv' h3' h4' h5'
    · rw [if_neg hc]
      exact ⟨h2, h3, h5⟩

/-! ### Claim theorems -/

/-- C1: for every crawl started by `check_menu_for_matcha`, the number of fetch
attempts never exceeds the page budget of 7, and the loop terminates at or
before that bound regardless of how many URLs remain in the frontier: any fuel
at least the budget yields the same (defined) crawl outcome, the loop's own
counter guard being what stops it. -/
theorem crawl_budget_bound (web : Web) (choose : List String → Nat) (url : String)
    (b b' : Nat) (hb : MAX_PAGES_TO_CRAWL ≤ b) (hb' : MAX_PAGES_TO_CRAWL ≤ b') :
    (check_menu_full web choose url).count ≤ MAX_PAGES_TO_CRAWL ∧
    crawlLoop web choose (web.parse url).netloc b [url] [] 0 =
      crawlLoop web choose (web.parse url).netloc b' [url] [] 0 := by
  constructor
  · unfold check_menu_full
    by_cases h : url = ""
    · simp [h]
    · rw [if_neg h]
      exact crawlLoop_count_le web choose _ _ _ _ _ (by omega)
  · exact crawlLoop_fuel_irrel web choose _ b b' _ _ _ (by omega) (by omega)

/-- Witness for C1 on a concrete dataset: the counter stays within 7 and fuel
7 and fuel 20 agree. -/
theorem crawl_budget_bound_witness :
    (check_menu_full webC chooseFirst "http://s.test/").count ≤ MAX_PAGES_TO_CRAWL ∧
    crawlLoop webC chooseFirst (webC.parse "http://s.test/").netloc 7
        ["http://s.test/"] [] 0 =
      crawlLoop webC chooseFirst (webC.parse "http://s.test/").netloc 20
        ["http://s.test/"] [] 0 :=
  crawl_budget_bound webC chooseFirst "http://s.test/" 7 20 (by decide) (by decide)

/-- C2: every URL in the visited set of a crawl is either the seed itself or a
URL that passed the same-domain check against the seed's network location when
it was enqueued — no fetched URL lies on another domain. -/
theorem crawl_domain_containment (web : Web) (choose : List String → Nat) (url u : String)
    (hu : u ∈ (check_menu_full web choose url).visited) :
    u = url ∨ urlFromDomain (web.parse url).netloc u := by
  unfold check_menu_full at hu
  by_cases h : url = ""
  · rw [if_pos h] at hu
    simp at hu
  · rw [if_neg h] at hu
    exact (crawlLoop_inv web choose (web.parse url).netloc url
      MAX_PAGES_TO_CRAWL [url] [] 0 (List.nodup_singleton _) List.nodup_nil
      (by simp) (fun x hx => Or.inl (List.mem_singleton.mp hx)) (by simp)).2.2 u hu

/-- Witness for C2: a URL fetched during a concrete crawl is on the seed
domain. -/
theorem crawl_domain_containment_witness :
    "http://s.test/a1" = "http://s.test/" ∨
      urlFromDomain (webC.parse "http://s.test/").netloc "http://s.test/a1" :=
  crawl_domain_containment webC chooseFirst "http://s.test/" "http://s.test/a1" (by decide)

/-- C5: the visited set of any crawl is duplicate-free (no URL fetched twice),
and the leftover frontier is disjoint from it. -/
theorem crawl_no_duplicate_fetch (web : Web) (choose : List String → Nat) (url : String) :
    (check_menu_full web choose url).visited.Nodup ∧
    ∀ u ∈ (check_menu_full web choose url).frontier,
      u ∉ (check_menu_full web choose url).visited := by
  unfold check_menu_full
  by_cases h : url = ""
  · simp [h]
  · rw [if_neg h]
    obtain ⟨g1, g2, g3⟩ := crawlLoop_inv web choose (web.parse url).netloc url
      MAX_PAGES_TO_CRAWL [url] [] 0 (List.nodup_singleton _) List.nodup_nil
      (by simp) (fun x hx => Or.inl (List.mem_singleton.mp hx)) (by simp)
    exact ⟨g1, g2⟩

/-- Witness for C5: the URL left unfetched in the concrete budget-exhausted
crawl is not among the visited pages. -/
theorem crawl_no_duplicate_fetch_witness :
    "http://s.test/a7" ∉ (check_menu_full webC chooseFirst "http://s.test/").visited :=
  (crawl_no_duplicate_fetch webC chooseFirst "http://s.test/").2 "http://s.test/a7" (by decide)

/-- C3: at any crawl state within budget, if the popped page fetches with
status 200 and its text matches a pattern of the fixed matcha-pattern set, the
crawl returns `true` at once — the counter stops at this fetch and no further
page is fetched. -/
theorem crawl_early_termination (web : Web) (choose : List String → Nat) (dom : String)
    (b : Nat) (frontier visited : List String) (count : Nat)
    (current : String) (rest : List String) (pg : Fetched)
    (hc : count < MAX_PAGES_TO_CRAWL)
    (hpop : popUnvisited choose frontier.length frontier visited = some (current, rest))
    (hfetch : web.fetch current = some pg)
    (hstatus : pg.status = 200)
    (hmatch : matchaPatternSearch (lowerStr pg.text) = true) :
    crawlLoop web choose dom (b + 1) frontier visited count =
      ⟨true, current :: visited, count + 1, rest⟩ := by
  rw [crawlLoop, if_pos hc, hpop]
  dsimp only
  rw [hfetch]
  dsimp only
  have hs : ¬pg.status ≠ 200 := by simp [hstatus]
  rw [if_neg hs, if_pos hmatch]

/-- Witness for C3: in the two-page scenario the menu page matches on the
second fetch and the crawl stops there. -/
theorem crawl_early_termination_witness :
    crawlLoop webW chooseFirst "ex.test" 6 ["http://ex.test/menu"] ["http://ex.test/"] 1 =
      ⟨true, ["http://ex.test/menu", "http://ex.test/"], 2, []⟩ :=
  crawl_early_termination webW chooseFirst "ex.test" 5 ["http://ex.test/menu"]
    ["http://ex.test/"] 1 "http://ex.test/menu" [] ⟨200, "Iced Matcha Latte - 5.00", []⟩
    (by decide) (by decide) (by decide) (by decide) (by decide)

/-- C10: on the fetch that raises the counter to the budget maximum, link
extraction is skipped entirely: whatever anchors the page carries, the crawl
ends with the frontier exactly as the pop left it. -/
theorem final_page_no_enqueue (web : Web) (choose : List String → Nat) (dom : String)
    (b : Nat) (frontier visited : List String) (count : Nat)
    (current : String) (rest : List String) (pg : Fetched)
    (hcount : count + 1 = MAX_PAGES_TO_CRAWL)
    (hpop : popUnvisited choose frontier.length frontier visited = some (current, rest))
    (hfetch : web.fetch current = some pg)
    (hstatus : pg.status = 200)
    (hmatch : matchaPatternSearch (lowerStr pg.text) = false) :
    crawlLoop web choose dom (b + 1) frontier visited count =
      ⟨false, current :: visited, MAX_PAGES_TO_CRAWL, rest⟩ := by
  have hc : count < MAX_PAGES_TO_CRAWL := by omega
  rw [crawlLoop, if_pos hc, hpop]
  dsimp only
  rw [hfetch]
  dsimp only
  have hs : ¬pg.status ≠ 200 := by simp [hstatus]
  have hm : ¬matchaPatternSearch (lowerStr pg.text) = true := by simp [hmatch]
  have hc2 : ¬count + 1 < MAX_PAGES_TO_CRAWL := by omega
  rw [if_neg hs, if_neg hm, if_neg hc2, hcount]
  cases b with
  | zero => rfl
  | succ k =>
    rw [crawlLoop, if_neg (by omega : ¬MAX_PAGES_TO_CRAWL < MAX_PAGES_TO_CRAWL)]

/-- Witness for C10: the 7th fetch lands on a page with seven anchors, and
none of them reaches the frontier. -/
theorem final_page_no_enqueue_witness :
    crawlLoop webC chooseFirst "s.test" 1 ["http://s.test/"] [] 6 =
      ⟨false, ["http://s.test/"], MAX_PAGES_TO_CRAWL, []⟩ :=
  final_page_no_enqueue webC chooseFirst "s.test" 0 ["http://s.test/"] [] 6
    "http://s.test/" [] webCSeedPage
    (by decide) (by decide) (by decide) (by decide) (by decide)

/-- C6: for a candidate link that resolved to the seed domain and is in
neither the visited set nor the frontier, a priority-classified link is always
enqueued, while a general link is enqueued exactly while the frontier holds
fewer than `MAX_PAGES_TO_CRAWL * 2 = 14` entries and is dropped once the
frontier has reached that cap. -/
theorem enqueue_cap_policy (resolve : String → Url → Url) (dom current : String)
    (visited front : List String) (a : Anchor) (j : Url)
    (hj : hrefJoin resolve current a.href = some j)
    (hdom : j.netloc = dom) (hv : j.geturl ∉ visited) (hf : j.geturl ∉ front) :
    (isPriorityLink j (lowerStr a.text) = true →
      enqueueOne resolve dom current visited front a = front ++ [j.geturl]) ∧
    (isPriorityLink j (lowerStr a.text) = false →
      front.length < MAX_PAGES_TO_CRAWL * 2 →
      enqueueOne resolve dom current visited front a = front ++ [j.geturl]) ∧
    (isPriorityLink j (lowerStr a.text) = false →
      MAX_PAGES_TO_CRAWL * 2 ≤ front.length →
      enqueueOne resolve dom current visited front a = front) := by
  unfold enqueueOne
  rw [hj]
  dsimp only
  rw [if_pos ⟨hdom, hv, hf⟩]
  refine ⟨fun hp => by rw [if_pos hp], fun hp hl => ?_, fun hp hl => ?_⟩
  · rw [if_neg (by simp [hp]), if_pos hl]
  · rw [if_neg (by simp [hp]), if_neg (by omega)]

/-- A frontier already holding `MAX_PAGES_TO_CRAWL * 2` entries. -/
def front14 : List String :=
  ["u1", "u2", "u3", "u4", "u5", "u6", "u7", "u8", "u9", "u10", "u11", "u12", "u13", "u14"]

/-- A same-domain anchor with no priority keyword. -/
def anchorGeneral : Anchor := ⟨⟨"http", "d.test", "/about"⟩, "about us"⟩

/-- A same-domain anchor whose path carries the keyword `menu`. -/
def anchorPriority : Anchor := ⟨⟨"http", "d.test", "/menu"⟩, "Menu"⟩

/-- Witness for C6: at a full frontier of 14 entries the general link is
dropped while the priority link is still enqueued. -/
theorem enqueue_cap_policy_witness :
    enqueueOne (fun _ u => u) "d.test" "http://d.test/" [] front14 anchorGeneral = front14 ∧
    enqueueOne (fun _ u => u) "d.test" "http://d.test/" [] front14 anchorPriority =
      front14 ++ ["http://d.test/menu"] := by
  constructor
  · exact (enqueue_cap_policy (fun _ u => u) "d.test" "http://d.test/" [] front14
      anchorGeneral ⟨"http", "d.test", "/about"⟩ (by decide) (by decide) (by decide)
      (by decide)).2.2 (by decide) (by decide)
  · exact (enqueue_cap_policy (fun _ u => u) "d.test" "http://d.test/" [] front14
      anchorPriority ⟨"http", "d.test", "/menu"⟩ (by decide) (by decide) (by decide)
      (by decide)).1 (by decide)

/-! ### Helper lemmas about the aggregator -/

/-- The evidence list as a function of the verdict and the supplementary
evidence. -/
theorem check_for_matcha_snd_eq (web : Web) (choose : List String → Nat)
    (pd : PlaceDetails) :
    (check_for_matcha web choose pd).2 =
      (let m := (check_for_matcha web choose pd).1
       let ev := (if m then ["Found on menu (website scan)"] else []) ++ suppEvidence pd
       if ev = [] ∧ m = false then ev ++ ["No specific matcha indicators found."] else ev) := rfl

/-- When the menu scan failed, the evidence is the supplementary evidence,
padded with the placeholder entry exactly when empty. -/
theorem check_for_matcha_of_false (web : Web) (choose : List String → Nat)
    (pd : PlaceDetails) (h : (check_for_matcha web choose pd).1 = false) :
    (check_for_matcha web choose pd).2 =
      if suppEvidence pd = [] then
        suppEvidence pd ++ ["No specific matcha indicators found."]
      else suppEvidence pd := by
  rw [check_for_matcha_snd_eq, h]
  simp

/-- When the menu scan succeeded, the evidence opens with the menu-scan
entry. -/
theorem check_for_matcha_of_true (web : Web) (choose : List String → Nat)
    (pd : PlaceDetails) (h : (check_for_matcha web choose pd).1 = true) :
    (check_for_matcha web choose pd).2 =
      "Found on menu (website scan)" :: suppEvidence pd := by
  rw [check_for_matcha_snd_eq, h]
  simp

/-- C4: `hasMatcha` is true exactly when the website crawl returns true, and a
business whose name mentions matcha but whose crawl fails still gets
`hasMatcha = false`, the name mention appearing only as evidence. -/
theorem hasMatcha_authority (web : Web) (choose : List String → Nat) (pd : PlaceDetails) :
    ((check_for_matcha web choose pd).1 = true ↔
      ∃ w, pd.website = some w ∧ w ≠ "" ∧ check_menu_for_matcha web choose w = true) ∧
    (∀ w, pd.website = some w → check_menu_for_matcha web choose w = false →
      containsStr "matcha" (lowerStr (pd.name.getD "")) = true →
      (check_for_matcha web choose pd).1 = false ∧
        "Mentioned in name" ∈ (check_for_matcha web choose pd).2) := by
  have hfst : (check_for_matcha web choose pd).1 =
      (match pd.website with
       | some w => if w = "" then false else check_menu_for_matcha web choose w
       | none => false) := rfl
  constructor
  · rw [hfst]
    cases hw : pd.website with
    | none => simp
    | some w =>
      by_cases hww : w = ""
      · subst hww; simp
      · simp [hww]
  · intro w hw hcrawl hname
    have hm : (check_for_matcha web choose pd).1 = false := by
      rw [hfst, hw]
      by_cases hww : w = "" <;> simp [hww, hcrawl]
    refine ⟨hm, ?_⟩
    have hsupp : "Mentioned in name" ∈ suppEvidence pd := by
      unfold suppEvidence
      simp [hname]
    rw [check_for_matcha_of_false web choose pd hm,
      if_neg (fun hemp => by simp [hemp] at hsupp)]
    exact hsupp

/-- A pure-fetch-failure dataset cannot find matcha on any website. -/
def pdMatchaName : PlaceDetails :=
  ⟨some "Matcha House", some "http://none.test/", none, none, []⟩

/-- Witness for C4: a business named "Matcha House" whose website crawl finds
nothing gets a false verdict with the name mention as mere evidence. -/
theorem hasMatcha_authority_witness :
    (check_for_matcha webN chooseFirst pdMatchaName).1 = false ∧
      "Mentioned in name" ∈ (check_for_matcha webN chooseFirst pdMatchaName).2 :=
  (hasMatcha_authority webN chooseFirst pdMatchaName).2 "http://none.test/"
    rfl (by decide) (by decide)

/-- C7: the evidence list is never empty — the placeholder entry is appended
exactly when nothing else was collected and the verdict is false, and a true
verdict always contributes the menu-scan entry. -/
theorem evidence_nonempty (web : Web) (choose : List String → Nat) (pd : PlaceDetails) :
    (check_for_matcha web choose pd).2 ≠ [] ∧
    ((check_for_matcha web choose pd).1 = true →
      "Found on menu (website scan)" ∈ (check_for_matcha web choose pd).2) ∧
    ((check_for_matcha web choose pd).1 = false → suppEvidence pd = [] →
      (check_for_matcha web choose pd).2 = ["No specific matcha indicators found."]) := by
  refine ⟨?_, fun h => ?_, fun h hsupp => ?_⟩
  · cases hb : (check_for_matcha web choose pd).1 with
    | false =>
      rw [check_for_matcha_of_false web choose pd hb]
      by_cases hs : suppEvidence pd = []
      · simp [hs]
      · rw [if_neg hs]; exact hs
    | true =>
      rw [check_for_matcha_of_true web choose pd hb]
      simp
  · rw [check_for_matcha_of_true web choose pd h]
    exact List.mem_cons_self _ _
  · rw [check_for_matcha_of_false web choose pd h, if_pos hsupp, hsupp]
    rfl

/-- A business record with every optional field absent. -/
def pdEmpty : PlaceDetails := ⟨none, none, none, none, []⟩

/-- Witness for C7: with no fields at all, the evidence list is exactly the
placeholder entry. -/
theorem evidence_nonempty_witness :
    (check_for_matcha webN chooseFirst pdEmpty).2 = ["No specific matcha indicators found."] :=
  (evidence_nonempty webN chooseFirst pdEmpty).2.2 (by decide) (by decide)

/-- C8: with an absent or empty website the aggregator's outcome does not
depend on the web at all (no network call), the verdict is false, the
evidence comes only from the supplementary fields, and the crawler itself
returns false immediately on an empty URL. -/
theorem no_website_no_crawl (web web' : Web) (choose choose' : List String → Nat)
    (pd : PlaceDetails) (hw : pd.website = none ∨ pd.website = some "") :
    check_for_matcha web choose pd = check_for_matcha web' choose' pd ∧
    (check_for_matcha web choose pd).1 = false ∧
    (check_for_matcha web choose pd).2 =
      (if suppEvidence pd = [] then
        suppEvidence pd ++ ["No specific matcha indicators found."]
      else suppEvidence pd) ∧
    check_menu_for_matcha web choose "" = false := by
  have hm : ∀ (w2 : Web) (c2 : List String → Nat), (check_for_matcha w2 c2 pd).1 = false := by
    intro w2 c2
    have hfst : (check_for_matcha w2 c2 pd).1 =
        (match pd.website with
         | some w => if w = "" then false else check_menu_for_matcha w2 c2 w
         | none => false) := rfl
    rw [hfst]
    rcases hw with hw | hw <;> simp [hw]
  refine ⟨?_, hm web choose, check_for_matcha_of_false web choose pd (hm web choose), rfl⟩
  have e1 := check_for_matcha_of_false web choose pd (hm web choose)
  have e2 := check_for_matcha_of_false web' choose' pd (hm web' choose')
  apply Prod.ext
  · rw [hm web choose, hm web' choose']
  · rw [e1, e2]

/-- A business with no website but plenty of supplementary evidence. -/
def pdNoSite : PlaceDetails :=
  ⟨some "Tea Corner", none, some [⟨"lovely matcha here"⟩], none, ["cafe"]⟩

/-- Witness for C8: two entirely different webs and removal strategies give the
same outcome on a website-less business. -/
theorem no_website_no_crawl_witness :
    check_for_matcha webC chooseFirst pdNoSite = check_for_matcha webN chooseLast pdNoSite ∧
    (check_for_matcha webC chooseFirst pdNoSite).1 = false ∧
    (check_for_matcha webC chooseFirst pdNoSite).2 =
      (if suppEvidence pdNoSite = [] then
        suppEvidence pdNoSite ++ ["No specific matcha indicators found."]
      else suppEvidence pdNoSite) ∧
    check_menu_for_matcha webC chooseFirst "" = false :=
  no_website_no_crawl webC webN chooseFirst chooseLast pdNoSite (Or.inl rfl)

/-- C9, counterexample: on the fixed dataset `webC` (the same pages and links
throughout), the same seed crawled under two removal orders of the frontier
yields different verdicts — the verdict is not independent of the unspecified
`set.pop` order. -/
theorem crawl_order_dependence :
    check_menu_for_matcha webC chooseLast "http://s.test/" = true ∧
    check_menu_for_matcha webC chooseFirst "http://s.test/" = false :=
  ⟨by decide, by decide⟩

/-- C9, amended: the crawl verdict is a deterministic (pure) function of the
seed URL, the page/link dataset and the frontier-removal strategy — two
invocations agreeing pointwise on all three produce the same verdict. -/
theorem crawl_deterministic (web web' : Web) (choose choose' : List String → Nat)
    (url : String)
    (hf : ∀ u, web.fetch u = web'.fetch u)
    (hp : ∀ u, web.parse u = web'.parse u)
    (hr : ∀ cu u, web.resolve cu u = web'.resolve cu u)
    (hc : ∀ l, choose l = choose' l) :
    check_menu_for_matcha web choose url = check_menu_for_matcha web' choose' url := by
  have h1 : web = web' := by
    obtain ⟨f1, p1, r1⟩ := web
    obtain ⟨f2, p2, r2⟩ := web'
    have e1 : f1 = f2 := funext hf
    have e2 : p1 = p2 := funext hp
    have e3 : r1 = r2 := funext fun cu => funext fun u => hr cu u
    rw [e1, e2, e3]
  have h2 : choose = choose' := funext hc
  rw [h1, h2]

/-- Witness for the amended C9 at a concrete dataset and strategy. -/
theorem crawl_deterministic_witness :
    check_menu_for_matcha webC chooseFirst "http://s.test/" =
      check_menu_for_matcha webC chooseFirst "http://s.test/" :=
  crawl_deterministic webC webC chooseFirst chooseFirst "http://s.test/"
    (fun _ => rfl) (fun _ => rfl) (fun _ _ => rfl) (fun _ => rfl)
